import Mathlib

/- Verification of the incremental-learning (iCaRL) repository against its
specification.  The repository contains two generations of the model class
`iCaRLModel`: the base implementation in src/libs/models/icarl.py and the
classifier-variants implementation in src/libs/models/icarl_classifiers.py,
plus the ablation loss module src/libs/ablationstudy_losses.py and the
backbone helpers in src/libs/modified_resnet.py.  Tensor values are embedded
as lists of exact numbers (rationals where the code needs only field and
order operations, reals where square roots, exponentials or logarithms
appear); sample identities and class labels are naturals. -/

namespace ICaRL

/-! ## Python-level helpers -/

/-- Python exceptions raised by the embedded operations. -/
inductive PyError
  | valueError
  | assertionError
  deriving DecidableEq

/-- Python list indexing `l[i]` with negative-index wraparound.  A genuinely
out-of-range access raises IndexError in Python; it is mapped to the default
`d` here and no evaluation in this file performs one. -/
def pyIdx {α : Type} (l : List α) (d : α) (i : Int) : α :=
  if 0 ≤ i then l.getD i.toNat d else l.getD (l.length - (-i).toNat) d

/-- Insert into an ascending-sorted list (helper for `pySetList`). -/
def insertAsc (x : ℕ) : List ℕ → List ℕ
  | [] => [x]
  | y :: ys => if x ≤ y then x :: y :: ys else y :: insertAsc x ys

/-- `list(s)` for a CPython `set` of distinct nonnegative small ints: CPython
sets are open-addressing hash tables with initial table size 8, `hash(n) = n`
for small naturals, and iteration in slot order; when all stored values are
distinct and below 8 each value `n` sits in slot `n`, so iteration visits the
values in ascending numeric order regardless of insertion order.  The source
only adds identities not already present, so duplicates never arise. -/
def pySetList (l : List ℕ) : List ℕ := l.foldr insertAsc []

/-! ## Memory-budget allocation (icarl.py, `after_train`, lines 46-53) -/

/-- Per-class memory allocation computed by `iCaRLModel.after_train`
(src/libs/models/icarl.py lines 46-51): `min_memory = int(memory / known)`
(Python `int()` of a nonnegative float ratio, i.e. floor division, modelled
exactly as `Nat` division); the list starts as `known` copies of
`min_memory`, and the loop `for i in range(memory % known)` adds one extra
exemplar to each of the first `memory % known` entries. -/
def class_memories (memory known : ℕ) : List ℕ :=
  (List.range known).map
    (fun i => if i < memory % known then memory / known + 1 else memory / known)

/-- The assertion guarding the allocation (icarl.py line 53):
`assert sum(class_memories) == 2000` — against the literal constant 2000,
not against `self.memory`. -/
def after_train_assert (memory known : ℕ) : Bool :=
  (class_memories memory known).sum == 2000

/-! ## Exemplar-set reduction -/

/-- `iCaRLModel.reduce_exemplar_set` (src/libs/models/icarl.py lines 179-184):
raises `ValueError` when the exemplar set stored for `label` has fewer than
`m` index entries, otherwise truncates both the index list and the feature
list of that class to their first `m` elements.  The store is a list of
(identity list, feature list) pairs indexed by class label; the error is
raised before any mutation, so the `.error` branch leaves the store
untouched. -/
def reduce_exemplar_set (sets : List (List ℕ × List (List ℝ))) (m label : ℕ) :
    Except PyError (List (List ℕ × List (List ℝ))) :=
  let es := sets.getD label ([], [])
  if es.1.length < m then .error .valueError
  else .ok (sets.set label (es.1.take m, es.2.take m))

/-- `iCaRLModel.reduce_exemplar_set` (src/libs/models/icarl_classifiers.py
lines 431-433): no size check at all; the body is the plain Python slice
`self.exemplar_sets[label] = self.exemplar_sets[label][:m]`, which never
raises and keeps at most the first `m` entries (all of them when `m` is not
smaller than the current size). -/
def reduce_exemplar_set_clf (sets : List (List ℕ)) (m label : ℕ) : List (List ℕ) :=
  sets.set label ((sets.getD label []).take m)

/-! ## Classification-head expansion (icarl.py, `increment_class`, 63-71) -/

/-- A fully connected head `nn.Linear`: weights are indexed (output row,
input column), biases by output row. -/
structure LinearLayer where
  in_features : ℕ
  out_features : ℕ
  weight : ℕ → ℕ → ℚ
  bias : ℕ → ℚ

/-- `iCaRLModel.increment_class` (src/libs/models/icarl.py lines 63-71):
saves the current weights and biases, replaces `fc` with a freshly
initialized `nn.Linear(in_feature, num_classes)` (its framework-default
random initial values are the `fresh` argument), and copies the saved values
into output rows `0 .. out_features-1` by the slice assignments
`weight.data[:out_feature] = weight` and `bias.data[:out_feature] = bias`.
Faithful for `fc.out_features ≤ num_classes`; with a smaller `num_classes`
the slice assignment would raise a shape-mismatch error in the source. -/
def increment_class (fc : LinearLayer) (num_classes : ℕ) (fresh : LinearLayer) :
    LinearLayer :=
  { in_features := fc.in_features
    out_features := num_classes
    weight := fun i j => if i < fc.out_features then fc.weight i j else fresh.weight i j
    bias := fun i => if i < fc.out_features then fc.bias i else fresh.bias i }

/-! ## Strategy dispatch (`classify`) -/

/-- Tags for the helpers reachable from the classifier-variants `classify`
dispatch (src/libs/models/icarl_classifiers.py lines 316-334). -/
inductive ClfStrategy
  | nme | cosine | knnSvm | wa | bias | fc
  deriving DecidableEq

/-- `iCaRLModel.classify` (src/libs/models/icarl_classifiers.py lines
316-334): an if/elif chain on the `method` string whose final `else` raises
`ValueError("invalid method")`. -/
def classify_clf (method : String) : Except PyError ClfStrategy :=
  if method = "nearest-mean" then .ok .nme
  else if method = "cosine" then .ok .cosine
  else if method = "knn" ∨ method = "svm" then .ok .knnSvm
  else if method = "wa" then .ok .wa
  else if method = "bias" then .ok .bias
  else if method = "fc" then .ok .fc
  else .error .valueError

/-- Tags for the helpers reachable from the base `classify` dispatch
(src/libs/models/icarl.py lines 86-92). -/
inductive BaseStrategy
  | nearestMean | fc | knn
  deriving DecidableEq

/-- `iCaRLModel.classify` (src/libs/models/icarl.py lines 86-92): an if/elif
chain with no `else` branch — an unrecognized method string falls off the end
of the function and Python silently returns `None`. -/
def classify_base (method : String) : Option BaseStrategy :=
  if method = "nearest-mean" then some .nearestMean
  else if method = "fc" then some .fc
  else if method = "knn" then some .knn
  else none

/-! ## Bias-correction layer (modified_resnet.py `BiasLayer`,
icarl_classifiers.py `bias_forward` / `_bias_correction`) -/

/-- `BiasLayer.forward` (src/libs/modified_resnet.py lines 109-110):
`alpha * x + beta`, broadcast elementwise over the input. -/
def biasLayer (alpha beta : ℚ) (x : List ℚ) : List ℚ :=
  x.map (fun v => alpha * v + beta)

/-- `BiasLayer.__init__` (src/libs/modified_resnet.py lines 105-108):
`alpha = torch.ones(1)`. -/
def biasLayerInitAlpha : ℚ := 1

/-- `BiasLayer.__init__` (src/libs/modified_resnet.py lines 105-108):
`beta = torch.zeros(1)`. -/
def biasLayerInitBeta : ℚ := 0

/-- `iCaRLModel.bias_forward` (src/libs/models/icarl_classifiers.py lines
343-350), per logit row: the first `n` (old-class) columns pass through
unmodified, the bias layer is applied only to the remaining (new-class)
columns, and the two slices are concatenated back. -/
def bias_forward (alpha beta : ℚ) (n : ℕ) (row : List ℚ) : List ℚ :=
  row.take n ++ biasLayer alpha beta (row.drop n)

/-- Scan for `listArgmax`: `bi`/`bv` are the current best index and value,
`i` the position of the head of `l`; a later entry replaces the best only
when strictly greater. -/
def listArgmaxAux : List ℚ → ℕ → ℚ → ℕ → ℕ
  | [], bi, _, _ => bi
  | x :: xs, bi, bv, i =>
      if bv < x then listArgmaxAux xs i x (i + 1) else listArgmaxAux xs bi bv (i + 1)

/-- First-maximum index of a list: `torch.max(x, 1)` and `torch.argmax`
return the index of the first maximal entry.  Empty rows do not occur. -/
def listArgmax : List ℚ → ℕ
  | [] => 0
  | x :: xs => listArgmaxAux xs 0 x 1

/-- `iCaRLModel._bias_correction` (src/libs/models/icarl_classifiers.py lines
352-357), the `bias` inference strategy: computes the logits and applies the
bias layer to the WHOLE logit row — `self.bias_layer(preds)`, not
`bias_forward` — before taking the row argmax. -/
def _bias_correction (alpha beta : ℚ) (logits : List (List ℚ)) : List ℕ :=
  logits.map (fun row => listArgmax (biasLayer alpha beta row))

/-- The `fc` inference strategy (src/libs/models/icarl_classifiers.py lines
329-332): `torch.max(outputs.data, 1)` — the row argmax of the raw logits. -/
def classify_fc (logits : List (List ℚ)) : List ℕ :=
  logits.map listArgmax

/-! ## Real-vector helpers (torch / numpy operations) -/

/-- Vector 2-norm: `t.norm(p=2)` and `np.linalg.norm(v)` on a vector. -/
noncomputable def l2norm (v : List ℝ) : ℝ :=
  Real.sqrt (v.map (fun x => x ^ 2)).sum

/-- Euclidean distance `torch.dist(a, b)` (default p=2). -/
noncomputable def l2dist (u v : List ℝ) : ℝ :=
  Real.sqrt ((List.zipWith (fun a b => (a - b) ^ 2) u v).sum)

/-- Elementwise division of a vector by a scalar (`t / s`). -/
noncomputable def vecDivScalar (v : List ℝ) (s : ℝ) : List ℝ :=
  v.map (fun x => x / s)

/-- `v / v.norm(p=2)`: L2 normalization of one vector, as in
`class_mean / class_mean.norm(p=2)` and
`class_mean / np.linalg.norm(class_mean)`. -/
noncomputable def normalizeVec (v : List ℝ) : List ℝ :=
  vecDivScalar v (l2norm v)

/-- Elementwise sum of the rows of a matrix (`tensor.sum(0)` /
`torch.stack(rows).sum(0)`); `d` is the common row length. -/
def sumRows (m : List (List ℝ)) (d : ℕ) : List ℝ :=
  m.foldl (fun acc r => List.zipWith (· + ·) acc r) (List.replicate d (0 : ℝ))

/-- Elementwise mean of the rows (`tensor.mean(0)` / `np.mean(m, axis=0)`). -/
noncomputable def meanRows (m : List (List ℝ)) : List ℝ :=
  vecDivScalar (sumRows m (m.headD []).length) (m.length : ℝ)

/-- `np.linalg.norm(matrix)` with no axis argument: the Frobenius norm,
the square root of the sum of the squares of ALL entries. -/
noncomputable def frobNorm (mat : List (List ℝ)) : ℝ :=
  Real.sqrt ((mat.map (fun r => (r.map (fun x => x ^ 2)).sum)).sum)

/-! ## Herding construction, base implementation
(icarl.py, `construct_exemplar_set`, lines 140-177) -/

open scoped Classical in
/-- The inner candidate loop of `iCaRLModel.construct_exemplar_set`
(src/libs/models/icarl.py lines 160-174) at step `k`: scans the features with
their positions (`for i, feature in enumerate(flatten_features)`, `i` being
the position counter of the recursion), holding `(min_index, min_dist)`.
A position `i` is skipped when `i in exemplars` — `exemplars` holds the
already stored (mapped CIFAR) identities, exactly as in the source.  For the
others the candidate is `(feature + sum_exemplars) / (k + 1)` normalized by
its own 2-norm, where `sum_exemplars = 0 if k == 0 else sum(exemplars[:k])`
is the Python integer sum of the stored identities, broadcast-added to the
feature vector.  The running pair is replaced when
`min_index == -1 or min_dist > curr_dist`. -/
noncomputable def icarl_best_aux (class_mean : List ℝ) (exemplars : List ℕ)
    (k : ℕ) : List (List ℝ) → ℕ → Int × ℝ → Int × ℝ
  | [], _, acc => acc
  | phi :: rest, i, acc =>
      let next :=
        if i ∈ exemplars then acc
        else
          let s : ℝ :=
            if k = 0 then 0 else (((exemplars.take k).map (fun n => (n : ℝ))).sum)
          let cand := normalizeVec (phi.map (fun x => (x + s) / ((k : ℝ) + 1)))
          let d := l2dist class_mean cand
          if acc.1 = -1 ∨ acc.2 > d then ((i : Int), d) else acc
      icarl_best_aux class_mean exemplars k rest (i + 1) next

/-- The `(min_index, min_dist)` pair produced by one step of the
icarl.py herding loop, starting from `(-1, 0.0)`. -/
noncomputable def icarl_best (class_mean : List ℝ) (exemplars : List ℕ) (k : ℕ)
    (features : List (List ℝ)) : Int × ℝ :=
  icarl_best_aux class_mean exemplars k features 0 (-1, 0)

open scoped Classical in
/-- `iCaRLModel.construct_exemplar_set` (src/libs/models/icarl.py lines
140-177) for one class, starting from an empty stored set.  Raises
`ValueError` when the class has fewer than `m` samples; otherwise extracts
the per-sample features (given here as `features`, one row per image, with
`map_subset_to_cifar = single_class_dataset.indices` the corresponding CIFAR
identities), computes the L2-normalized feature mean, and for `k in range(m)`
appends `map_subset_to_cifar[min_index]` and `flatten_features[min_index]`
for the minimizing position of `icarl_best`.  Returns the final
(`indexes`, `features`) entry of `self.exemplar_sets[label]`. -/
noncomputable def construct_exemplar_set (features : List (List ℝ))
    (map_subset_to_cifar : List ℕ) (m : ℕ) :
    Except PyError (List ℕ × List (List ℝ)) :=
  if features.length < m then .error .valueError
  else
    let class_mean := normalizeVec (meanRows features)
    .ok ((List.range m).foldl
      (fun st k =>
        let best := icarl_best class_mean st.1 k features
        (st.1 ++ [pyIdx map_subset_to_cifar 0 best.1],
         st.2 ++ [pyIdx features [] best.1]))
      ([], []))

/-! ## Herding construction, classifier-variants implementation
(icarl_classifiers.py, `herding_construct_exemplar_set`, lines 441-477) -/

open scoped Classical in
/-- One step of `herding_construct_exemplar_set` (src/libs/models/icarl_classifiers.py
lines 461-467): `mu_p = (phi + S) / (k + 1)` row by row (`S` broadcast over the
rows), the whole matrix divided by `np.linalg.norm(mu_p)` — the Frobenius norm
of the matrix, NOT a per-row norm — and the per-row Euclidean distances
`np.sqrt(np.sum((mu - mu_p) ** 2, axis=1))` to the class mean `mu`. -/
noncomputable def herding_distances (mu : List ℝ) (features : List (List ℝ))
    (S : List ℝ) (k : ℕ) : List ℝ :=
  let muP := features.map (fun phi =>
    List.zipWith (fun a b => (a + b) / ((k : ℝ) + 1)) phi S)
  let F := frobNorm muP
  muP.map (fun r => l2dist mu (vecDivScalar r F))

open scoped Classical in
/-- The positions whose stored identity `indexes[i]` is not yet in the chosen
set, paired with their distances (`i` is the position of the head of the
distance list). -/
noncomputable def fresh_pairs (indexes chosen : List ℕ) :
    List ℝ → ℕ → List (ℕ × ℝ)
  | [], _ => []
  | d :: rest, i =>
      if pyIdx indexes 0 (i : Int) ∈ chosen then fresh_pairs indexes chosen rest (i + 1)
      else (i, d) :: fresh_pairs indexes chosen rest (i + 1)

open scoped Classical in
/-- Minimum-distance position among candidate pairs, ties kept at the earlier
position. -/
noncomputable def pick_min : List (ℕ × ℝ) → Option (ℕ × ℝ) → Option ℕ
  | [], acc => Option.map (fun p => p.1) acc
  | p :: rest, acc =>
      match acc with
      | none => pick_min rest (some p)
      | some q => pick_min rest (if p.2 < q.2 then some p else some q)

/-- The duplicate-avoiding pick (src/libs/models/icarl_classifiers.py lines
469-474): `for i in np.argsort(distances): if indexes[i] not in exemplars:
<take i>; break` — the not-yet-chosen position with minimal distance.
`np.argsort` is modelled as a stable sort (ties broken by lower position); no
evaluation in this file reaches a tie. -/
noncomputable def first_fresh_argmin (dists : List ℝ) (indexes chosen : List ℕ) :
    Option ℕ :=
  pick_min (fresh_pairs indexes chosen dists 0) none

open scoped Classical in
/-- The selection loop of `herding_construct_exemplar_set`
(src/libs/models/icarl_classifiers.py lines 453-474): the class mean is the
L2-normalized `np.mean(flatten_features, axis=0)`; at step `k`, `S` is `0`
for `k == 0` and otherwise `torch.stack(exemplar_feature).sum(0)`; the chosen
identity `indexes[i]` is added to the set `exemplars` and its feature row to
`exemplar_feature`.  Returns the pair (identities in selection order,
features in selection order); the selection order is the set-insertion
order. -/
noncomputable def herding_select (indexes : List ℕ) (features : List (List ℝ))
    (m : ℕ) : List ℕ × List (List ℝ) :=
  let d := (features.headD []).length
  let mu := normalizeVec (meanRows features)
  (List.range m).foldl
    (fun st k =>
      let S := if k = 0 then List.replicate d (0 : ℝ) else sumRows st.2 d
      let dists := herding_distances mu features S k
      match first_fresh_argmin dists indexes st.1 with
      | none => st
      | some i => (st.1 ++ [pyIdx indexes 0 (i : Int)],
                   st.2 ++ [pyIdx features [] (i : Int)]))
    ([], [])

open scoped Classical in
/-- `herding_construct_exemplar_set` end-to-end result (src/libs/models/icarl_classifiers.py
lines 476-477): after the selection loop, `assert len(exemplars) == m` and
`self.exemplar_sets.append(list(exemplars))` — the value actually stored for
the class is `list` of the Python `set`, i.e. `pySetList` of the selection
order, and only the identities are stored (the collected features are
discarded). -/
noncomputable def herding_construct_exemplar_set (indexes : List ℕ)
    (features : List (List ℝ)) (m : ℕ) : Except PyError (List ℕ) :=
  let sel := (herding_select indexes features m).1
  if sel.length = m then .ok (pySetList sel) else .error .assertionError

/-! ## Loss composition (ablationstudy_losses.py) -/

/-- Row-wise softmax `torch.softmax(r, dim=1)` applied to one row. -/
noncomputable def softmaxRow (r : List ℝ) : List ℝ :=
  r.map (fun x => Real.exp x / (r.map Real.exp).sum)

/-- `torch.softmax(m, dim=1)`. -/
noncomputable def softmax (m : List (List ℝ)) : List (List ℝ) :=
  m.map softmaxRow

/-- Row-wise `torch.log_softmax(r, dim=1)`. -/
noncomputable def logSoftmaxRow (r : List ℝ) : List ℝ :=
  r.map (fun x => Real.log (Real.exp x / (r.map Real.exp).sum))

/-- Logistic sigmoid, as used inside `BCEWithLogitsLoss`. -/
noncomputable def sigmoid (x : ℝ) : ℝ :=
  1 / (1 + Real.exp (-x))

/-- `_compute_cross_entropy_loss` (src/libs/ablationstudy_losses.py lines
7-11): `input = log_softmax(input, dim=1)`, per-row `sum(input * target)`,
then the negated mean over the batch dimension. -/
noncomputable def _compute_cross_entropy_loss (input target : List (List ℝ)) : ℝ :=
  let i := input.map logSoftmaxRow
  let rows := List.zipWith (fun a b => (List.zipWith (· * ·) a b).sum) i target;
  -(rows.sum / (rows.length : ℝ))

/-- `_compute_smt_loss` (src/libs/ablationstudy_losses.py lines 15-21):
temperature `T = 2`; `log_softmax(input / T)` against `softmax(target / T)`,
combined as in the cross-entropy loss. -/
noncomputable def _compute_smt_loss (input target : List (List ℝ)) : ℝ :=
  let T : ℝ := 2
  let i := (input.map (fun r => r.map (fun x => x / T))).map logSoftmaxRow
  let t := (target.map (fun r => r.map (fun x => x / T))).map softmaxRow
  let rows := List.zipWith (fun a b => (List.zipWith (· * ·) a b).sum) i t;
  -(rows.sum / (rows.length : ℝ))

/-- `_compute_bce_loss` (src/libs/ablationstudy_losses.py lines 25-27):
`nn.BCEWithLogitsLoss(reduction="mean")` — the mean over all entries of
`-(z * log(sigmoid x) + (1 - z) * log(1 - sigmoid x))`. -/
noncomputable def _compute_bce_loss (input target : List (List ℝ)) : ℝ :=
  let elems := (List.zipWith
    (fun ir tr => List.zipWith
      (fun x z => -(z * Real.log (sigmoid x) + (1 - z) * Real.log (1 - sigmoid x))) ir tr)
    input target).flatten
  elems.sum / (elems.length : ℝ)

/-- `_compute_kldiv_loss` (src/libs/ablationstudy_losses.py lines 30-34):
`nn.KLDivLoss(reduction="mean")` on `log_softmax(input)` and
`softmax(target)` — pointwise `t * (log t - i)`, averaged over ALL entries. -/
noncomputable def _compute_kldiv_loss (input target : List (List ℝ)) : ℝ :=
  let i := input.map logSoftmaxRow
  let t := target.map softmaxRow
  let elems := (List.zipWith
    (fun ir tr => List.zipWith (fun x z => z * (Real.log z - x)) ir tr) i t).flatten
  elems.sum / (elems.length : ℝ)

/-- `_compute_l2_loss` (src/libs/ablationstudy_losses.py lines 37-41):
`nn.MSELoss(reduction='mean')` between the row softmaxes, averaged over ALL
entries. -/
noncomputable def _compute_l2_loss (input target : List (List ℝ)) : ℝ :=
  let i := input.map softmaxRow
  let t := target.map softmaxRow
  let elems := (List.zipWith
    (fun ir tr => List.zipWith (fun a b => (a - b) ^ 2) ir tr) i t).flatten
  elems.sum / (elems.length : ℝ)

/-- Cosine similarity of two vectors. -/
noncomputable def cosSim (u v : List ℝ) : ℝ :=
  (List.zipWith (· * ·) u v).sum / (l2norm u * l2norm v)

/-- `_compute_lfc_loss` (src/libs/ablationstudy_losses.py lines 46-51):
rows L2-normalized by `F.normalize(-, p=2)`, then
`nn.CosineEmbeddingLoss()` with an all-ones flag: the batch mean of
`1 - cos(input_row, target_row)`. -/
noncomputable def _compute_lfc_loss (input target : List (List ℝ)) : ℝ :=
  let i := input.map normalizeVec
  let t := target.map normalizeVec
  let rows := List.zipWith (fun a b => 1 - cosSim a b) i t
  rows.sum / (rows.length : ℝ)

/-- The loss kinds of the `self.loss_computer` dictionary
(src/libs/ablationstudy_losses.py lines 59-66). -/
inductive LossKind
  | bce | ce | smt | kldiv | lfc | l2
  deriving DecidableEq

/-- The dictionary-of-callables `self.loss_computer`
(src/libs/ablationstudy_losses.py lines 59-66). -/
noncomputable def loss_computer : LossKind → List (List ℝ) → List (List ℝ) → ℝ
  | .bce => _compute_bce_loss
  | .ce => _compute_cross_entropy_loss
  | .smt => _compute_smt_loss
  | .kldiv => _compute_kldiv_loss
  | .lfc => _compute_lfc_loss
  | .l2 => _compute_l2_loss

open scoped Classical in
/-- `ClassificationDistillationLosses.__call__` (src/libs/ablationstudy_losses.py
lines 68-86).  `classification` and `distillation` are the loss kinds fixed
at construction (`distillation` may be `None`); `dist_input` / `dist_target`
are the `None`-able per-batch arguments.  When all three are present:
`dist_ratio = 1 - class_ratio`; for the `lfc` kind `dist_ratio` is recomputed
as `5 * math.sqrt(class_ratio / (1 - class_ratio))` from the caller's ratio
and `class_ratio` is then set to `1`; for the `bce` / `ce` kinds the
distillation target is first passed through `torch.softmax(-, dim=1)`;
`dist_correction = dist_input.shape[1] / 100` (the number of distilled
output columns, a Python true division); the result is
`class_ratio * class_loss + dist_ratio * dist_correction * dist_loss`.
Otherwise the classification loss alone is returned. -/
noncomputable def composeLoss (classification : LossKind)
    (distillation : Option LossKind) (class_input class_target : List (List ℝ))
    (dist_input dist_target : Option (List (List ℝ))) (class_ratio : ℝ) : ℝ :=
  let class_loss := loss_computer classification class_input class_target
  match distillation, dist_input, dist_target with
  | some dk, some di, some dt =>
    let p : ℝ × ℝ × List (List ℝ) :=
      if dk = .lfc then
        (5 * Real.sqrt (class_ratio / (1 - class_ratio)), 1, dt)
      else if dk = .bce ∨ dk = .ce then
        (1 - class_ratio, class_ratio, softmax dt)
      else
        (1 - class_ratio, class_ratio, dt)
    let dist_loss := loss_computer dk di p.2.2
    let dist_correction := ((di.headD []).length : ℝ) / 100
    p.2.1 * class_loss + p.1 * dist_correction * dist_loss
  | _, _, _ => class_loss

/-- Concrete head used by witness statements. -/
def fcExample : LinearLayer :=
  { in_features := 64, out_features := 2
    weight := fun i j => (i : ℚ) + j, bias := fun i => (i : ℚ) }

/-- Concrete framework-default initialization used by witness statements. -/
def freshExample : LinearLayer :=
  { in_features := 64, out_features := 5
    weight := fun i j => 100 + (i : ℚ) * j, bias := fun i => 50 + (i : ℚ) }

/-! ## Helper lemmas -/

theorem sum_range_ite (r c : ℕ) (K : ℕ) :
    ((List.range K).map (fun i => if i < r then c + 1 else c)).sum = K * c + min r K := by
  induction K with
  | zero => simp
  | succ n ih =>
      rw [List.range_succ, List.map_append, List.sum_append]
      simp only [List.map_cons, List.map_nil, List.sum_cons, List.sum_nil]
      have hc : (n + 1) * c = n * c + c := by ring
      by_cases h : n < r
      · rw [if_pos h, ih]; omega
      · rw [if_neg h, ih]; omega

theorem class_memories_sum (M K : ℕ) (hK : 1 ≤ K) :
    (class_memories M K).sum = M := by
  unfold class_memories
  rw [sum_range_ite]
  have h1 : M % K < K := Nat.mod_lt _ (by omega)
  have h2 := Nat.div_add_mod M K
  omega

theorem class_memories_getD (M K i : ℕ) (hi : i < K) :
    (class_memories M K).getD i 0 = if i < M % K then M / K + 1 else M / K := by
  unfold class_memories
  rw [List.getD_eq_getElem?_getD, List.getElem?_map, List.getElem?_range hi]
  rfl

theorem set_getD_self (sets : List (List ℕ)) (label : ℕ) :
    sets.set label (sets.getD label []) = sets := by
  induction sets generalizing label with
  | nil => rfl
  | cons a t ih =>
      cases label with
      | zero => rfl
      | succ n => simpa [List.getD_cons_succ] using ih n

theorem l2norm_singleton (x : ℝ) : l2norm [x] = |x| := by
  simp [l2norm, Real.sqrt_sq_eq_abs]

theorem l2dist_singleton (a b : ℝ) : l2dist [a] [b] = |a - b| := by
  simp [l2dist, Real.sqrt_sq_eq_abs]

theorem normalizeVec_singleton_pos (x : ℝ) (hx : 0 < x) : normalizeVec [x] = [1] := by
  simp [normalizeVec, vecDivScalar, l2norm_singleton, abs_of_pos hx, div_self hx.ne']

theorem meanRows_pair_one : meanRows [[(1 : ℝ)], [1]] = [1] := by
  norm_num [meanRows, sumRows, vecDivScalar]

theorem c1_eval_best0 : icarl_best [1] [] 0 [[(1 : ℝ)], [1]] = (0, 0) := by
  have h1 : normalizeVec [(1 : ℝ)] = [1] := normalizeVec_singleton_pos 1 one_pos
  have hd : l2dist [(1 : ℝ)] [1] = 0 := by rw [l2dist_singleton]; norm_num
  norm_num [icarl_best, icarl_best_aux, h1, hd]

theorem c1_eval_best1 : icarl_best [1] [100] 1 [[(1 : ℝ)], [1]] = (0, 0) := by
  have h1 : normalizeVec [(101 : ℝ) / 2] = [1] := normalizeVec_singleton_pos _ (by norm_num)
  have hd : l2dist [(1 : ℝ)] [1] = 0 := by rw [l2dist_singleton]; norm_num
  norm_num [icarl_best, icarl_best_aux, h1, hd]

theorem meanRows_pair31 : meanRows [[(3 : ℝ)], [1]] = [2] := by
  norm_num [meanRows, sumRows, vecDivScalar]

theorem sqrt10_pos : (0 : ℝ) < Real.sqrt 10 := Real.sqrt_pos.mpr (by norm_num)

theorem sqrt13_pos : (0 : ℝ) < Real.sqrt 13 := Real.sqrt_pos.mpr (by norm_num)

theorem c3_dists0 :
    herding_distances [1] [[(3 : ℝ)], [1]] [0] 0
      = [1 - 3 / Real.sqrt 10, 1 - (Real.sqrt 10)⁻¹] := by
  have h3 : (3 : ℝ) ≤ Real.sqrt 10 :=
    (Real.le_sqrt (by norm_num) (by norm_num)).mpr (by norm_num)
  have h1 : (1 : ℝ) ≤ Real.sqrt 10 :=
    (Real.le_sqrt (by norm_num) (by norm_num)).mpr (by norm_num)
  have e3 : |1 - 3 / Real.sqrt 10| = 1 - 3 / Real.sqrt 10 :=
    abs_of_nonneg (sub_nonneg.mpr ((div_le_one sqrt10_pos).mpr h3))
  have e1 : |1 - (Real.sqrt 10)⁻¹| = 1 - (Real.sqrt 10)⁻¹ := by
    rw [← one_div]
    exact abs_of_nonneg (sub_nonneg.mpr ((div_le_one sqrt10_pos).mpr h1))
  norm_num [herding_distances, frobNorm, vecDivScalar, l2dist_singleton, e3, e1]

theorem c3_dists1 :
    herding_distances [1] [[(3 : ℝ)], [1]] [3] 1
      = [1 - 3 / Real.sqrt 13, 1 - 2 / Real.sqrt 13] := by
  have h3 : (3 : ℝ) ≤ Real.sqrt 13 :=
    (Real.le_sqrt (by norm_num) (by norm_num)).mpr (by norm_num)
  have h2 : (2 : ℝ) ≤ Real.sqrt 13 :=
    (Real.le_sqrt (by norm_num) (by norm_num)).mpr (by norm_num)
  have e3 : |1 - 3 / Real.sqrt 13| = 1 - 3 / Real.sqrt 13 :=
    abs_of_nonneg (sub_nonneg.mpr ((div_le_one sqrt13_pos).mpr h3))
  have e2 : |1 - 2 / Real.sqrt 13| = 1 - 2 / Real.sqrt 13 :=
    abs_of_nonneg (sub_nonneg.mpr ((div_le_one sqrt13_pos).mpr h2))
  norm_num [herding_distances, frobNorm, vecDivScalar, l2dist_singleton, e3, e2]

theorem c3_pick0 :
    first_fresh_argmin (herding_distances [1] [[(3 : ℝ)], [1]] [0] 0) [5, 2] []
      = some 0 := by
  rw [c3_dists0]
  have hcomp : ¬ ((3 : ℝ) / Real.sqrt 10 < (Real.sqrt 10)⁻¹) := by
    rw [← one_div]
    have hd : (1 : ℝ) / Real.sqrt 10 ≤ 3 / Real.sqrt 10 := by
      gcongr
      norm_num
    linarith
  norm_num [first_fresh_argmin, fresh_pairs, pick_min, pyIdx, hcomp]

theorem c3_pick1 :
    first_fresh_argmin (herding_distances [1] [[(3 : ℝ)], [1]] [3] 1) [5, 2] [5]
      = some 1 := by
  rw [c3_dists1]
  norm_num [first_fresh_argmin, fresh_pairs, pick_min, pyIdx]

theorem c3_select :
    herding_select [5, 2] [[(3 : ℝ)], [1]] 2 = ([5, 2], [[3], [1]]) := by
  have hcm : normalizeVec (meanRows [[(3 : ℝ)], [1]]) = [1] := by
    rw [meanRows_pair31]; exact normalizeVec_singleton_pos 2 two_pos
  norm_num [herding_select, List.range_succ, hcm, sumRows, c3_pick0, c3_pick1, pyIdx]

/-! ## Claim theorems -/

/-- Claim C3 (code divergence): on a class whose samples have identities
[5, 2] and one-dimensional features [3] and [1] with budget m = 2, the
classifier-variants herding selects identity 5 first and identity 2 second,
but what the code stores for the class is `list(exemplars)` of a Python
`set`, which iterates these small ints in ascending order: the stored
exemplar set is [2, 5], NOT the herding insertion order [5, 2] that the
claim (and the later prefix truncation) requires. -/
theorem c3_storage_loses_selection_order :
    (herding_select [5, 2] [[(3 : ℝ)], [1]] 2).1 = [5, 2] ∧
    herding_construct_exemplar_set [5, 2] [[(3 : ℝ)], [1]] 2 = .ok [2, 5] ∧
    ([2, 5] : List ℕ) ≠ [5, 2] := by
  refine ⟨by rw [c3_select], ?_, by decide⟩
  norm_num [herding_construct_exemplar_set, c3_select, pySetList, insertAsc]

/-- Claim C1 (code divergence): a class with two samples whose CIFAR
identities are 100 and 101 and whose features are both the vector [1], with
budget m = 2: the base herding construction selects identity 100 at BOTH
steps — the membership test `i in exemplars` compares candidate positions
with stored CIFAR identities and never fires, and the running sum
`sum(exemplars[:k])` adds identity numbers instead of selected features —
so the returned exemplar sequence contains a duplicate, contradicting the
claimed "m pairs, all drawn from the class samples with no duplicates". -/
theorem c1_herding_duplicate :
    construct_exemplar_set [[(1 : ℝ)], [1]] [100, 101] 2
        = .ok ([100, 100], [[1], [1]]) ∧
    ¬ ([100, 100] : List ℕ).Nodup := by
  refine ⟨?_, by decide⟩
  have hcm : normalizeVec (meanRows [[(1 : ℝ)], [1]]) = [1] := by
    rw [meanRows_pair_one]; exact normalizeVec_singleton_pos 1 one_pos
  norm_num [construct_exemplar_set, List.range_succ, hcm, c1_eval_best0,
    c1_eval_best1, pyIdx]

/-- Claim C2: for every total memory budget M and every number of known
classes K ≥ 1, the per-class allocation computed after training gives every
class either ⌊M/K⌋ or ⌊M/K⌋+1 exemplars, with the extra exemplar going to
exactly the first M mod K classes in ascending class-index order, and the K
per-class allocations sum to exactly M. -/
theorem c2_memory_allocation (M K : ℕ) (hK : 1 ≤ K) :
    (class_memories M K).length = K ∧
    (∀ i, i < K →
      (class_memories M K).getD i 0 = M / K ∨
      (class_memories M K).getD i 0 = M / K + 1) ∧
    (∀ i, i < K → ((class_memories M K).getD i 0 = M / K + 1 ↔ i < M % K)) ∧
    (class_memories M K).sum = M := by
  refine ⟨by simp [class_memories], ?_, ?_, class_memories_sum M K hK⟩
  · intro i hi
    rw [class_memories_getD M K i hi]
    by_cases h : i < M % K
    · rw [if_pos h]; right; rfl
    · rw [if_neg h]; left; rfl
  · intro i hi
    rw [class_memories_getD M K i hi]
    by_cases h : i < M % K
    · rw [if_pos h]; simp [h]
    · rw [if_neg h]; simp [h]

/-- Witness for C2 at M = 10, K = 3: the allocation sums to 10 and class 0
receives the extra exemplar. -/
theorem c2_memory_allocation_witness :
    (class_memories 10 3).sum = 10 ∧ (class_memories 10 3).getD 0 0 = 10 / 3 + 1 :=
  ⟨(c2_memory_allocation 10 3 (by decide)).2.2.2,
   ((c2_memory_allocation 10 3 (by decide)).2.2.1 0 (by decide)).mpr (by decide)⟩

/-- Claim C9: the `after_train` assertion compares the allocation sum with
the literal constant 2000, and since the allocation always sums to the
configured budget, the assertion holds iff the model was constructed with
memory = 2000 — any other budget makes `after_train` raise even though the
computed allocation correctly sums to that budget. -/
theorem c9_assert_iff_memory_2000 (M K : ℕ) (hK : 1 ≤ K) :
    (after_train_assert M K = true ↔ M = 2000) ∧ (class_memories M K).sum = M := by
  refine ⟨?_, class_memories_sum M K hK⟩
  unfold after_train_assert
  rw [class_memories_sum M K hK]
  simp

/-- Witness for C9: the assertion fails at memory 1500 and holds at 2000
(with 3 known classes). -/
theorem c9_assert_witness :
    after_train_assert 1500 3 = false ∧ after_train_assert 2000 3 = true := by
  have h1 := (c9_assert_iff_memory_2000 1500 3 (by decide)).1
  have h2 := (c9_assert_iff_memory_2000 2000 3 (by decide)).1
  constructor
  · cases hb : after_train_assert 1500 3 with
    | false => rfl
    | true => exact absurd (h1.mp hb) (by decide)
  · exact h2.mpr rfl

/-- Claim C5 counterexample: the classifier-variants `reduce_exemplar_set`
asked to "reduce" a 2-element exemplar set to 5 raises no error — it returns
normally with the store unchanged — whereas the claim requires every
reduction request with target above the current size to fail fast. -/
theorem c5_reduce_counterexample :
    reduce_exemplar_set_clf [[7, 8]] 5 0 = [[7, 8]] := by decide

/-- Claim C5 (amended): construction with a budget above the number of
available class samples fails fast with `ValueError` before producing any
exemplar state, and the base implementation's `reduce_exemplar_set` raises
`ValueError` when asked to grow a set; but the classifier-variants
`reduce_exemplar_set` performs no size check — such a request returns
normally and leaves the store unchanged. -/
theorem c5_preconditions_amended
    (features : List (List ℝ)) (map : List ℕ) (m : ℕ) (h : features.length < m)
    (sets2 : List (List ℕ × List (List ℝ))) (m3 label3 : ℕ)
    (h3 : ((sets2.getD label3 ([], [])).1).length < m3)
    (sets : List (List ℕ)) (m2 label2 : ℕ)
    (h2 : (sets.getD label2 []).length ≤ m2) :
    construct_exemplar_set features map m = .error .valueError ∧
    reduce_exemplar_set sets2 m3 label3 = .error .valueError ∧
    reduce_exemplar_set_clf sets m2 label2 = sets := by
  refine ⟨?_, ?_, ?_⟩
  · unfold construct_exemplar_set
    rw [if_pos h]
  · simp only [reduce_exemplar_set]
    rw [if_pos h3]
  · unfold reduce_exemplar_set_clf
    rw [List.take_of_length_le h2, set_getD_self]

/-- Witness for the amended C5: concrete runs of all three operations. -/
theorem c5_preconditions_witness :
    construct_exemplar_set [[1], [1]] [100, 101] 3 = .error .valueError ∧
    reduce_exemplar_set [([4, 5], [[1], [1]])] 7 0 = .error .valueError ∧
    reduce_exemplar_set_clf [[7, 8]] 9 0 = [[7, 8]] :=
  c5_preconditions_amended [[1], [1]] [100, 101] 3 (by decide)
    [([4, 5], [[1], [1]])] 7 0 (by decide)
    [[7, 8]] 9 0 (by decide)

/-- Claim C8 counterexample: the base implementation's `classify` falls off
the end of its if/elif chain for an unrecognized strategy identifier and
silently returns `None` — no configuration error is raised. -/
theorem c8_classify_counterexample :
    classify_base "bogus" = none := by decide

/-- Claim C8 (amended): the classifier-variants `classify` raises
`ValueError` for every identifier outside its seven recognized strategy
strings, but the base `classify` recognizes only nearest-mean / fc / knn and
silently returns `None` (not an error) for every other identifier. -/
theorem c8_classify_amended (s t : String)
    (hs : s ∉ ["nearest-mean", "cosine", "knn", "svm", "wa", "bias", "fc"])
    (ht : t ∉ ["nearest-mean", "fc", "knn"]) :
    classify_clf s = .error .valueError ∧ classify_base t = none := by
  simp only [List.mem_cons, List.not_mem_nil, or_false, not_or] at hs ht
  obtain ⟨h1, h2, h3, h4, h5, h6, h7⟩ := hs
  obtain ⟨g1, g2, g3⟩ := ht
  constructor
  · simp [classify_clf, h1, h2, h3, h4, h5, h6, h7]
  · simp [classify_base, g1, g2, g3]

/-- Witness for the amended C8 at the identifier "nme". -/
theorem c8_classify_witness :
    classify_clf "nme" = .error .valueError ∧ classify_base "nme" = none :=
  c8_classify_amended "nme" "nme" (by decide) (by decide)

/-- Claim C7: expanding the head from N to N + K outputs with
`increment_class` (called with the new total N + K) reproduces the first N
output rows of weights and biases exactly, and every added output slot
carries the fresh layer's framework-default initialization. -/
theorem c7_increment_class_roundtrip (fc : LinearLayer) (K : ℕ)
    (fresh : LinearLayer) :
    (increment_class fc (fc.out_features + K) fresh).out_features
        = fc.out_features + K ∧
    (∀ i j, i < fc.out_features →
      (increment_class fc (fc.out_features + K) fresh).weight i j = fc.weight i j) ∧
    (∀ i, i < fc.out_features →
      (increment_class fc (fc.out_features + K) fresh).bias i = fc.bias i) ∧
    (∀ i j, fc.out_features ≤ i →
      (increment_class fc (fc.out_features + K) fresh).weight i j = fresh.weight i j) ∧
    (∀ i, fc.out_features ≤ i →
      (increment_class fc (fc.out_features + K) fresh).bias i = fresh.bias i) := by
  refine ⟨rfl, fun i j hi => ?_, fun i hi => ?_, fun i j hi => ?_, fun i hi => ?_⟩
  · simp [increment_class, hi]
  · simp [increment_class, hi]
  · simp [increment_class, Nat.not_lt.mpr hi]
  · simp [increment_class, Nat.not_lt.mpr hi]

/-- Witness for C7: a 2-output head expanded to 5 outputs keeps row 1 and
takes row 3 from the fresh initialization. -/
theorem c7_increment_class_witness :
    (increment_class fcExample (fcExample.out_features + 3) freshExample).weight 1 0
        = fcExample.weight 1 0 ∧
    (increment_class fcExample (fcExample.out_features + 3) freshExample).bias 3
        = freshExample.bias 3 :=
  ⟨(c7_increment_class_roundtrip fcExample 3 freshExample).2.1 1 0 (by decide),
   (c7_increment_class_roundtrip fcExample 3 freshExample).2.2.2.2 3 (by decide)⟩

/-- Claim C6 (code divergence): with one old class (n = 1), trained bias
parameters alpha = 2, beta = 0 and logit row [1, 3/5], the `bias` inference
strategy `_bias_correction` transforms EVERY logit column — the old-class
logit 1 becomes 2 — and predicts class 0, while the transform the claim
describes (`bias_forward`, which does leave old columns unmodified) yields
[1, 6/5] and predicts class 1. -/
theorem c6_bias_inference_transforms_old_columns :
    biasLayer 2 0 [1, 3/5] = [2, 6/5] ∧
    (biasLayer 2 0 [1, 3/5]).getD 0 0 ≠ (1 : ℚ) ∧
    bias_forward 2 0 1 [1, 3/5] = [1, 6/5] ∧
    (bias_forward 2 0 1 [1, 3/5]).getD 0 0 = (1 : ℚ) ∧
    _bias_correction 2 0 [[1, 3/5]] = [0] ∧
    classify_fc [bias_forward 2 0 1 [1, 3/5]] = [1] := by
  norm_num [biasLayer, bias_forward, _bias_correction, classify_fc,
    listArgmax, listArgmaxAux]

/-- Claim C4: the loss composer returns the plain classification loss when
the distillation kind or either distillation argument is missing; otherwise
it returns `class_ratio * class_loss + dist_ratio * dist_correction *
dist_loss`, with `dist_ratio = 1 - class_ratio` by default, except that for
the feature-cosine (`lfc`) kind `dist_ratio = 5 * sqrt(class_ratio / (1 -
class_ratio))` is computed from the caller's ratio and `class_ratio` is then
forced to 1; `dist_correction` is the number of distilled output columns
divided by 100 (and for the `bce` / `ce` distillation kinds the distillation
target is softmaxed first). -/
theorem c4_loss_weighting (classification dk : LossKind) (d : Option LossKind)
    (ci ct di dt : List (List ℝ)) (r : ℝ) :
    composeLoss classification d ci ct (some di) none r
        = loss_computer classification ci ct ∧
    composeLoss classification d ci ct none (some dt) r
        = loss_computer classification ci ct ∧
    composeLoss classification none ci ct (some di) (some dt) r
        = loss_computer classification ci ct ∧
    composeLoss classification (some dk) ci ct (some di) (some dt) r
        = (if dk = .lfc then 1 else r) * loss_computer classification ci ct
          + (if dk = .lfc then 5 * Real.sqrt (r / (1 - r)) else 1 - r)
            * (((di.headD []).length : ℝ) / 100)
            * loss_computer dk di
                (if dk = .bce ∨ dk = .ce then softmax dt else dt) := by
  refine ⟨?_, ?_, ?_, ?_⟩
  · cases d <;> rfl
  · cases d <;> rfl
  · rfl
  · cases dk <;> simp [composeLoss]

/-- Claim C10: a freshly constructed `BiasLayer` has alpha = 1 and beta = 0,
so it computes the identity and `bias` classification before any
bias-training phase returns exactly the `fc` (argmax logit) predictions on
every batch of logits. -/
theorem c10_fresh_bias_identity (logits : List (List ℚ)) :
    _bias_correction biasLayerInitAlpha biasLayerInitBeta logits
      = classify_fc logits := by
  unfold _bias_correction classify_fc biasLayerInitAlpha biasLayerInitBeta biasLayer
  simp

end ICaRL
